import Mathlib

/-!
Verification of the InnoStart Pro AI pipeline: prompt-response extraction
(server/services/geminiService.js) and the business-plan persistence and
normalization routes (server/routes/ai.js), shallowly embedded in Lean.

JavaScript strings are modeled as Lean String, database TEXT columns that
may be NULL as Option String, JSON-shaped JavaScript values as the
inductive type Json below (numbers restricted to integers, which covers
every value the claims touch), and the external model call as an
Except-valued parameter supplied to each route handler.
-/

namespace InnoStart

/-- JSON-shaped JavaScript values. Object fields keep insertion order, as
JavaScript objects do. Numbers are modeled as integers. -/
inductive Json where
  | null
  | bool (b : Bool)
  | num (n : Int)
  | str (s : String)
  | arr (items : List Json)
  | obj (fields : List (String × Json))

/-- JavaScript truthiness of a JSON-shaped value: false, 0, the empty
string and null are falsy; arrays and objects are always truthy. -/
def Json.truthy : Json → Bool
  | .null => false
  | .bool b => b
  | .num n => n != 0
  | .str s => s != ""
  | .arr _ => true
  | .obj _ => true

/-- Property read v.k on a JavaScript value: none models undefined
(missing key, or a non-object receiver). -/
def Json.get? : Json → String → Option Json
  | .obj fields, k => (fields.find? (fun p => p.1 == k)).map (fun p => p.2)
  | _, _ => none

/-- JavaScript whitespace recognized by trim and by the regex class used
in the source (space, tab, newline, carriage return, form feed,
vertical tab). -/
def isJsWs (c : Char) : Bool :=
  c == ' ' || c == '\t' || c == '\n' || c == '\r' || c == '\x0c' || c == '\x0b'

/-- Models String.prototype.trim: drop leading and trailing whitespace. -/
def jsTrim (s : String) : String :=
  String.mk (((s.toList.dropWhile isJsWs).reverse.dropWhile isJsWs).reverse)

/-- Does the character list hay start with the character list needle? -/
def startsWithList : List Char → List Char → Bool
  | [], _ => true
  | _ :: _, [] => false
  | a :: as, b :: bs => a == b && startsWithList as bs

/-- Does hay contain needle as a contiguous run (String.prototype.includes)? -/
def hasSubList (needle : List Char) : List Char → Bool
  | [] => startsWithList needle []
  | c :: rest => startsWithList needle (c :: rest) || hasSubList needle rest

/-- String.prototype.includes. -/
def containsSub (s sub : String) : Bool := hasSubList sub.toList s.toList

/-- Remove the first occurrence of pat (String.prototype.replace with a
plain-string pattern and empty replacement). -/
def removeFirstL (pat : List Char) : List Char → List Char
  | [] => []
  | c :: rest =>
    if startsWithList pat (c :: rest) then (c :: rest).drop pat.length
    else c :: removeFirstL pat rest

/-- String-level wrapper for removeFirstL. -/
def removeFirstS (s pat : String) : String :=
  String.mk (removeFirstL pat.toList s.toList)

/-- Split a character list at every occurrence of sep, keeping empty
pieces (String.prototype.split with a single-character separator). -/
def splitCharList (sep : Char) : List Char → List (List Char)
  | [] => [[]]
  | c :: rest =>
    let r := splitCharList sep rest
    if c == sep then [] :: r
    else
      match r with
      | h :: t => (c :: h) :: t
      | [] => [[c]]

/-- Split a string into its newline-separated lines, as text.split with
the newline character does in the source. -/
def splitLines (s : String) : List String :=
  (splitCharList '\n' s.toList).map String.mk

/-- Join strings with a separator. -/
def joinWith (sep : String) : List String → String
  | [] => ""
  | [s] => s
  | s :: rest => s ++ sep ++ joinWith sep rest

/-- JavaScript property assignment obj[k] = v: overwrite in place when the
key exists, append otherwise. -/
def objAssign (fields : List (String × Json)) (k : String) (v : Json) :
    List (String × Json) :=
  if fields.any (fun p => p.1 == k) then
    fields.map (fun p => if p.1 == k then (k, v) else p)
  else fields ++ [(k, v)]

/-- Skip JSON whitespace (space, tab, newline, carriage return). -/
def skipWs : List Char → List Char
  | [] => []
  | c :: rest =>
    if c == ' ' || c == '\t' || c == '\n' || c == '\r' then skipWs rest
    else c :: rest

/-- Hexadecimal digit value, for the unicode escape of JSON strings. -/
def hexVal (c : Char) : Option Nat :=
  if '0' ≤ c && c ≤ '9' then some (c.toNat - 48)
  else if 'a' ≤ c && c ≤ 'f' then some (c.toNat - 87)
  else if 'A' ≤ c && c ≤ 'F' then some (c.toNat - 55)
  else none

/-- Parse the body of a JSON string literal, after the opening quote,
handling the escape sequences JSON.parse accepts and rejecting raw
control characters. Returns the string and the unconsumed input. -/
def parseStringBody : List Char → List Char → Option (String × List Char)
  | [], _ => none
  | c :: rest, acc =>
    if c == '"' then some (String.mk acc.reverse, rest)
    else if c == '\\' then
      match rest with
      | [] => none
      | e :: rest2 =>
        if e == '"' then parseStringBody rest2 ('"' :: acc)
        else if e == '\\' then parseStringBody rest2 ('\\' :: acc)
        else if e == '/' then parseStringBody rest2 ('/' :: acc)
        else if e == 'b' then parseStringBody rest2 ('\x08' :: acc)
        else if e == 'f' then parseStringBody rest2 ('\x0c' :: acc)
        else if e == 'n' then parseStringBody rest2 ('\n' :: acc)
        else if e == 'r' then parseStringBody rest2 ('\r' :: acc)
        else if e == 't' then parseStringBody rest2 ('\t' :: acc)
        else if e == 'u' then
          match rest2 with
          | a :: b :: c2 :: d :: rest3 =>
            match hexVal a, hexVal b, hexVal c2, hexVal d with
            | some x, some y, some z, some w =>
              parseStringBody rest3 (Char.ofNat (((x * 16 + y) * 16 + z) * 16 + w) :: acc)
            | _, _, _, _ => none
          | _ => none
        else none
    else if c.toNat < 32 then none
    else parseStringBody rest (c :: acc)

/-- Decimal value of a run of digit characters. -/
def digitsVal (ds : List Char) : Nat :=
  ds.foldl (fun a c => a * 10 + (c.toNat - 48)) 0

/-- Parse a JSON integer literal (optional minus sign, digits, no leading
zeros). Fractional and exponent forms are outside this model, which
restricts JSON numbers to integers. -/
def parseNumberInt (cs : List Char) : Option (Json × List Char) :=
  let (neg, cs1) := match cs with
    | '-' :: r => (true, r)
    | _ => (false, cs)
  let ds := cs1.takeWhile Char.isDigit
  let rest := cs1.dropWhile Char.isDigit
  if ds.isEmpty then none
  else if ds.length > 1 && ds.headD '0' == '0' then none
  else
    match rest with
    | '.' :: _ => none
    | 'e' :: _ => none
    | 'E' :: _ => none
    | _ =>
      let v : Int := Int.ofNat (digitsVal ds)
      some (.num (if neg then -v else v), rest)

/-- Work items of the fueled JSON parser: a value, the items of an array
after the first, or the members of an object. -/
inductive PIn where
  | val (cs : List Char)
  | arrItems (cs : List Char) (acc : List Json)
  | objMembers (cs : List Char) (acc : List (String × Json))

/-- Fueled recursive-descent JSON parser, modeling JSON.parse. Duplicate
object keys overwrite in place, as JavaScript property assignment does. -/
def parseGo : Nat → PIn → Option (Json × List Char)
  | 0, _ => none
  | f + 1, .val cs =>
    match cs with
    | [] => none
    | '"' :: rest => (parseStringBody rest []).map (fun p => (.str p.1, p.2))
    | '\x7b' :: rest =>
      (match skipWs rest with
       | '\x7d' :: r2 => some (.obj [], r2)
       | cs2 => parseGo f (.objMembers cs2 []))
    | '[' :: rest =>
      (match skipWs rest with
       | ']' :: r2 => some (.arr [], r2)
       | cs2 => parseGo f (.arrItems cs2 []))
    | 't' :: 'r' :: 'u' :: 'e' :: r => some (.bool true, r)
    | 'f' :: 'a' :: 'l' :: 's' :: 'e' :: r => some (.bool false, r)
    | 'n' :: 'u' :: 'l' :: 'l' :: r => some (.null, r)
    | _ => parseNumberInt cs
  | f + 1, .arrItems cs acc =>
    (match parseGo f (.val cs) with
     | none => none
     | some (v, r1) =>
       match skipWs r1 with
       | ',' :: r2 => parseGo f (.arrItems (skipWs r2) (acc ++ [v]))
       | ']' :: r2 => some (.arr (acc ++ [v]), r2)
       | _ => none)
  | f + 1, .objMembers cs acc =>
    (match cs with
     | '"' :: rest =>
       (match parseStringBody rest [] with
        | none => none
        | some (k, r1) =>
          match skipWs r1 with
          | ':' :: r2 =>
            (match parseGo f (.val (skipWs r2)) with
             | none => none
             | some (v, r3) =>
               match skipWs r3 with
               | ',' :: r4 => parseGo f (.objMembers (skipWs r4) (objAssign acc k v))
               | '\x7d' :: r4 => some (.obj (objAssign acc k v), r4)
               | _ => none)
          | _ => none)
     | _ => none)

/-- JSON.parse: whole-input strict parse, tolerating surrounding
whitespace; none models the thrown SyntaxError. -/
def Json.parse (s : String) : Option Json :=
  match parseGo (s.length * 2 + 4) (.val (skipWs s.toList)) with
  | some (v, rest) => if (skipWs rest).isEmpty then some v else none
  | none => none

mutual

/-- JavaScript ToString coercion used by template literals: strings
unchanged, numbers in decimal, null printed as null, arrays joined with
commas (null elements become empty), plain objects printed as the
bracketed object placeholder. -/
def jsToString : Json → String
  | .null => "null"
  | .bool b => cond b "true" "false"
  | .num n => toString n
  | .str s => s
  | .obj _ => "[object Object]"
  | .arr items => joinWith "," (jsArrParts items)

/-- Pieces of Array.prototype.join: null elements render as empty. -/
def jsArrParts : List Json → List String
  | [] => []
  | Json.null :: rest => "" :: jsArrParts rest
  | j :: rest => jsToString j :: jsArrParts rest

end

/-- The key prettifier of formatObjectToText in routes/ai.js: insert a
space before every capital letter, then capitalize the first character. -/
def formatKey (k : String) : String :=
  let spaced := k.toList.flatMap (fun c => if c.isUpper then [' ', c] else [c])
  match spaced with
  | [] => ""
  | c :: rest => String.mk (c.toUpper :: rest)

/-- Is a value a JavaScript number or string? Used by the table test in
formatObjectToText and formatTable. -/
def isNumOrStr : Json → Bool
  | .num _ => true
  | .str _ => true
  | _ => false

/-- Object.entries: fields of an object in insertion order, index-keyed
entries of an array, empty for primitives. -/
def jsEntries : Json → List (String × Json)
  | .obj fields => fields
  | .arr items => (items.enum.map (fun p => (toString p.1, p.2)))
  | _ => []

/-- The formatTable helper of GET /business-plan/:id in routes/ai.js:
arrays become bullet lines, objects of primitives become bulleted
key-value lines, and otherwise one nesting level is printed with
four-space indented sub-entries. -/
def formatTable (title : String) (data : Json) : String :=
  match data with
  | .arr items =>
    title ++ ":\n" ++ joinWith "\n" (items.map (fun item => "• " ++ jsToString item))
  | .obj fields =>
    if (fields.map (fun p => p.2)).all isNumOrStr then
      title ++ ":\n" ++
        joinWith "\n" (fields.map (fun kv => "• " ++ kv.1 ++ ": " ++ jsToString kv.2))
    else
      title ++ ":\n" ++
        joinWith "\n" (fields.map (fun kv =>
          match kv.2 with
          | .obj sub =>
            "  " ++ kv.1 ++ ":\n" ++
              joinWith "\n" (sub.map (fun s2 => "    " ++ s2.1 ++ ": " ++ jsToString s2.2))
          | .arr sub =>
            "  " ++ kv.1 ++ ":\n" ++
              joinWith "\n" ((jsEntries (.arr sub)).map
                (fun s2 => "    " ++ s2.1 ++ ": " ++ jsToString s2.2))
          | v => "  " ++ kv.1 ++ ": " ++ jsToString v))
  | v => title ++ ": " ++ jsToString v

/-- Indent every line of a string by two spaces, as the nested-object
branch of formatObjectToText does via split, map and join. -/
def indentTwo (s : String) : String :=
  joinWith "\n" ((splitCharList '\n' s.toList).map (fun l => String.mk (' ' :: ' ' :: l)))

mutual

/-- The formatObjectToText helper of GET /business-plan/:id in
routes/ai.js: strings returned unchanged; arrays formatted element-wise
and joined by newlines; objects rendered entry by entry, delegating to
formatTable for arrays and for objects holding at least one number or
string, recursing with two-space indentation otherwise; any other value
goes through the JavaScript coercion String of (obj or-else empty
string), which sends null to the empty string. -/
def formatObjectToText : Json → String
  | .str s => s
  | .null => ""
  | .bool b => cond b "true" ""
  | .num n => if n == 0 then "" else toString n
  | .arr items => joinWith "\n" (fmtItems items)
  | .obj fields => joinWith "\n\n" (fmtEntries fields)

/-- Element-wise formatting of a JavaScript array by formatObjectToText. -/
def fmtItems : List Json → List String
  | [] => []
  | j :: rest => formatObjectToText j :: fmtItems rest

/-- Entry-wise formatting of a JavaScript object by formatObjectToText. -/
def fmtEntries : List (String × Json) → List String
  | [] => []
  | (k, Json.arr items) :: rest =>
    formatTable (formatKey k) (.arr items) :: fmtEntries rest
  | (k, Json.obj vf) :: rest =>
    (if vf.any (fun p => isNumOrStr p.2) then formatTable (formatKey k) (.obj vf)
     else formatKey k ++ ":\n" ++ indentTwo (formatObjectToText (Json.obj vf))) ::
      fmtEntries rest
  | (k, v) :: rest => (formatKey k ++ ": " ++ jsToString v) :: fmtEntries rest

end

/-- JSON.stringify string escaping. -/
def jsonEscapeChar (c : Char) : List Char :=
  if c == '"' then ['\\', '"']
  else if c == '\\' then ['\\', '\\']
  else if c == '\n' then ['\\', 'n']
  else if c == '\r' then ['\\', 'r']
  else if c == '\t' then ['\\', 't']
  else if c == '\x08' then ['\\', 'b']
  else if c == '\x0c' then ['\\', 'f']
  else if c.toNat < 32 then
    let lo := c.toNat % 16
    let hi := c.toNat / 16
    ['\\', 'u', '0', '0',
      (if hi < 10 then Char.ofNat (48 + hi) else Char.ofNat (87 + hi)),
      (if lo < 10 then Char.ofNat (48 + lo) else Char.ofNat (87 + lo))]
  else [c]

/-- JSON.stringify escaping of a whole string, without the quotes. -/
def jsonEscape (s : String) : String :=
  String.mk (s.toList.flatMap jsonEscapeChar)

mutual

/-- JSON.stringify on a JSON-shaped value. -/
def Json.stringify : Json → String
  | .null => "null"
  | .bool b => cond b "true" "false"
  | .num n => toString n
  | .str s => "\"" ++ jsonEscape s ++ "\""
  | .arr items => "[" ++ joinWith "," (stringifyItems items) ++ "]"
  | .obj fields => "\x7b" ++ joinWith "," (stringifyMembers fields) ++ "\x7d"

/-- JSON.stringify of the items of an array. -/
def stringifyItems : List Json → List String
  | [] => []
  | j :: rest => Json.stringify j :: stringifyItems rest

/-- JSON.stringify of the members of an object. -/
def stringifyMembers : List (String × Json) → List String
  | [] => []
  | (k, v) :: rest =>
    ("\"" ++ jsonEscape k ++ "\":" ++ Json.stringify v) :: stringifyMembers rest

end

/-- Index of the first occurrence of a character. -/
def firstIdxOf (c : Char) : List Char → Option Nat
  | [] => none
  | x :: rest => if x == c then some 0 else (firstIdxOf c rest).map (fun k => k + 1)

/-- Index of the last occurrence of a character. -/
def lastIdxOf (c : Char) (cs : List Char) : Option Nat :=
  (firstIdxOf c cs.reverse).map (fun k => cs.length - 1 - k)

/-- The regex-style capture of the source: from the first occurrence of
the opening bracket to the last occurrence of the closing bracket, the
greedy match of the pattern used by text.match in geminiService.js.
none when no such span exists. -/
def captureBetween (oc cc : Char) (s : String) : Option String :=
  let cs := s.toList
  match firstIdxOf oc cs, lastIdxOf cc cs with
  | some i, some j =>
    if i < j then some (String.mk ((cs.drop i).take (j - i + 1))) else none
  | _, _ => none

/-- JavaScript parseInt on a string: skip leading whitespace, optional
sign, then leading decimal digits; none models NaN (no digits). -/
def parseIntJs (s : String) : Option Int :=
  let cs := s.toList.dropWhile isJsWs
  let (neg, cs1) := match cs with
    | '-' :: r => (true, r)
    | '+' :: r => (false, r)
    | _ => (false, cs)
  let ds := cs1.takeWhile Char.isDigit
  if ds.isEmpty then none
  else
    let v : Int := Int.ofNat (digitsVal ds)
    some (if neg then -v else v)

/-- First run of digit-or-comma characters in a line: the group captured
by the currency regex of parseBusinessIdeas. -/
def firstNumRun (s : String) : Option String :=
  let cs := s.toList.dropWhile (fun c => !(c.isDigit || c == ','))
  let run := cs.takeWhile (fun c => c.isDigit || c == ',')
  if run.isEmpty then none else some (String.mk run)

/-- One business idea under construction by the heuristic fallback
parseBusinessIdeas: fields appear only once their source line is seen.
The numeric fields hold none for the NaN that parseInt yields on a
digitless group. -/
structure IdeaDraft where
  title : Option String := none
  description : Option String := none
  targetMarket : Option String := none
  initialInvestment : Option (Option Int) := none
  expectedRevenue : Option (Option Int) := none
deriving DecidableEq, Repr

/-- Has any key been assigned (Object.keys nonempty)? -/
def IdeaDraft.nonEmpty (d : IdeaDraft) : Bool :=
  d.title.isSome || d.description.isSome || d.targetMarket.isSome ||
    d.initialInvestment.isSome || d.expectedRevenue.isSome

/-- The title assignment of parseBusinessIdeas: strip a leading
Business Title label or a leading 1. marker, then leading whitespace. -/
def stripIdeaTitle (line : String) : String :=
  if startsWithList "Business Title:".toList line.toList then
    String.mk ((line.toList.drop 15).dropWhile isJsWs)
  else if startsWithList "1.".toList line.toList then
    String.mk ((line.toList.drop 2).dropWhile isJsWs)
  else line

/-- The numeric field value of parseBusinessIdeas: 0 when the currency
regex finds no group, otherwise parseInt of the group with only its
first comma removed. -/
def ideaMoneyField (line : String) : Option Int :=
  match firstNumRun line with
  | none => some 0
  | some run => parseIntJs (removeFirstS run ",")

/-- One line of the parseBusinessIdeas loop in geminiService.js. -/
def ideasStep (st : List IdeaDraft × IdeaDraft) (rawLine : String) :
    List IdeaDraft × IdeaDraft :=
  let line := jsTrim rawLine
  if containsSub line "Business Title:" || containsSub line "1." then
    (st.1 ++ (if st.2.nonEmpty then [st.2] else []),
      { title := some (stripIdeaTitle line) })
  else if containsSub line "Description:" then
    (st.1, { st.2 with description := some (jsTrim (removeFirstS line "Description:")) })
  else if containsSub line "Target Market:" then
    (st.1, { st.2 with targetMarket := some (jsTrim (removeFirstS line "Target Market:")) })
  else if containsSub line "Investment:" then
    (st.1, { st.2 with initialInvestment := some (ideaMoneyField line) })
  else if containsSub line "Revenue:" then
    (st.1, { st.2 with expectedRevenue := some (ideaMoneyField line) })
  else st

/-- The heuristic fallback parseBusinessIdeas of geminiService.js. -/
def parseBusinessIdeas (text : String) : List IdeaDraft :=
  let st := (splitLines text).foldl ideasStep ([], {})
  st.1 ++ (if st.2.nonEmpty then [st.2] else [])

/-- Is the character in the uppercase class A-Z of the header regexes? -/
def isUpperAZ (c : Char) : Bool := 'A' ≤ c && c ≤ 'Z'

/-- The numbered-header regex of parseBusinessPlanSections: digits, a
dot, whitespace, then at least one uppercase-or-whitespace character,
anchored at the start of the line only. -/
def matchNumberedHeader (line : String) : Bool :=
  let cs := line.toList
  let ds := cs.takeWhile Char.isDigit
  let rest := cs.dropWhile Char.isDigit
  !ds.isEmpty &&
    (match rest with
     | '.' :: c0 :: c1 :: _ => isJsWs c0 && (isUpperAZ c1 || isJsWs c1)
     | _ => false)

/-- The colon-header regex of parseBusinessPlanSections: the entire line
is uppercase letters and whitespace followed by a final colon. -/
def matchColonHeader (line : String) : Bool :=
  match line.toList.reverse with
  | ':' :: rest => !rest.isEmpty && rest.all (fun c => isUpperAZ c || isJsWs c)
  | _ => false

/-- A line recognized as a section header by the heuristic parser. -/
def isHeaderLine (line : String) : Bool :=
  matchNumberedHeader line || matchColonHeader line

/-- Strip a leading numbered-label marker (digits, dot, whitespace) when
present, as the first replace of the header normalization does. -/
def stripNumberedLabel (line : String) : String :=
  let cs := line.toList
  let ds := cs.takeWhile Char.isDigit
  let rest := cs.dropWhile Char.isDigit
  match ds, rest with
  | _ :: _, '.' :: r2 =>
    if (r2.takeWhile isJsWs).isEmpty then line
    else String.mk (r2.dropWhile isJsWs)
  | _, _ => line

/-- The header normalization of parseBusinessPlanSections: strip the
numbered marker, then remove the first colon. -/
def stripHeader (line : String) : String :=
  removeFirstS (stripNumberedLabel line) ":"

/-- Insert or overwrite a key in an insertion-ordered string map, as
JavaScript object assignment does. -/
def upsert (m : List (String × String)) (k v : String) : List (String × String) :=
  if m.any (fun p => p.1 == k) then
    m.map (fun p => if p.1 == k then (k, v) else p)
  else m ++ [(k, v)]

/-- One line of the parseBusinessPlanSections loop: state is the current
section name (empty when none), the accumulated body lines, and the
finished sections. -/
def sectionsStep (st : String × List String × List (String × String))
    (rawLine : String) : String × List String × List (String × String) :=
  match st with
  | (cur, acc, secs) =>
    let line := jsTrim rawLine
    if isHeaderLine line then
      (stripHeader line, [],
        if cur == "" then secs else upsert secs cur (joinWith "\n" acc))
    else if line != "" && cur != "" then (cur, acc ++ [line], secs)
    else (cur, acc, secs)

/-- The heuristic fallback parseBusinessPlanSections of geminiService.js,
on an explicit list of lines. -/
def parsePlanSectionsLines (lines : List String) : List (String × String) :=
  match lines.foldl sectionsStep ("", [], []) with
  | (cur, acc, secs) =>
    if cur == "" then secs else upsert secs cur (joinWith "\n" acc)

/-- The heuristic fallback parseBusinessPlanSections of geminiService.js. -/
def parseBusinessPlanSections (text : String) : List (String × String) :=
  parsePlanSectionsLines (splitLines text)

/-- parseFinancialProjections of geminiService.js duplicates the
parseBusinessPlanSections algorithm line for line. -/
def parseFinancialProjections (text : String) : List (String × String) :=
  parsePlanSectionsLines (splitLines text)

/-- Outcome of the response extraction of generateBusinessIdeas: the
strictly parsed JSON capture, or the heuristic line parse. -/
inductive IdeasOutcome where
  | strict (v : Json)
  | heuristic (ideas : List IdeaDraft)

/-- The response-extraction stage of generateBusinessIdeas in
geminiService.js: capture the span from the first opening to the last
closing square bracket and JSON.parse it; with no capture, fall back to
parseBusinessIdeas. A capture that fails to parse raises, since the
JSON.parse call sits inside the try block whose catch rethrows the
generic failure error. -/
def generateBusinessIdeasExtract (text : String) : Except String IdeasOutcome :=
  match captureBetween '[' ']' text with
  | some cap =>
    (match Json.parse cap with
     | some v => .ok (.strict v)
     | none => .error "Failed to generate business ideas")
  | none => .ok (.heuristic (parseBusinessIdeas text))

/-- Outcome of the response extraction of generateBusinessPlan: the
strictly parsed JSON capture, or the fallback object carrying the title,
the raw text as content, and the heuristic sections. -/
inductive PlanOutcome where
  | strict (v : Json)
  | fallback (title content : String) (sections : List (String × String))

/-- The response-extraction stage of generateBusinessPlan in
geminiService.js: capture the span from the first opening to the last
closing curly brace and JSON.parse it; on no capture, or on a capture
that fails to parse (the inner catch), return the fallback object built
from the idea title, the raw text and parseBusinessPlanSections. -/
def generateBusinessPlanExtract (ideaTitle text : String) :
    Except String PlanOutcome :=
  match captureBetween '\x7b' '\x7d' text with
  | some cap =>
    (match Json.parse cap with
     | some v => .ok (.strict v)
     | none =>
       .ok (.fallback (ideaTitle ++ " - Business Plan") text
         (parseBusinessPlanSections text)))
  | none =>
    .ok (.fallback (ideaTitle ++ " - Business Plan") text
      (parseBusinessPlanSections text))

/-- The response-extraction stage of generateFinancialProjection in
geminiService.js, identical in shape to the business-plan one but with
its own fallback title suffix and parseFinancialProjections. -/
def generateFinancialProjectionExtract (ideaTitle text : String) :
    Except String PlanOutcome :=
  match captureBetween '\x7b' '\x7d' text with
  | some cap =>
    (match Json.parse cap with
     | some v => .ok (.strict v)
     | none =>
       .ok (.fallback (ideaTitle ++ " - Financial Projections") text
         (parseFinancialProjections text)))
  | none =>
    .ok (.fallback (ideaTitle ++ " - Financial Projections") text
      (parseFinancialProjections text))

/-- Is an Except value a success? -/
def exceptOk {α : Type} : Except String α → Bool
  | .ok _ => true
  | .error _ => false

/-- The JSON value a PlanOutcome presents to the route layer: the parsed
value, or the fallback object with title, content and sections keys. -/
def PlanOutcome.toJson : PlanOutcome → Json
  | .strict v => v
  | .fallback title content sections =>
    .obj [("title", .str title), ("content", .str content),
      ("sections", .obj (sections.map (fun p => (p.1, Json.str p.2))))]

/-- A row of the business-ideas table, restricted to the columns the
pipeline reads. -/
structure IdeaRow where
  id : Nat
  userId : Nat
  title : String
  description : String
  industry : String
  target_market : String
  initial_investment : Int
  expected_revenue : Int
  success_probability : Int
  status : String
  location : Option String
  budget_range : Option String
deriving DecidableEq, Repr

/-- A row of the business-plans table. Five of the section columns are
nullable TEXT columns; financial_projections is declared as a MySQL JSON
column, stored here as its serialized text — the mysql2 driver hands the
routes its parsed JavaScript value, which the read path below obtains
through jsonColValue. -/
structure DBPlanRow where
  id : Nat
  userId : Nat
  businessIdeaId : Nat
  title : String
  executive_summary : Option String
  market_analysis : Option String
  financial_projections : Option String
  marketing_strategy : Option String
  operations_plan : Option String
  risk_analysis : Option String
  updatedAt : Nat
deriving DecidableEq, Repr

/-- JavaScript truthiness of a nullable TEXT column: NULL and the empty
string are falsy. -/
def colTruthy : Option String → Bool
  | none => false
  | some s => s != ""

/-- The parsed JavaScript value mysql2 hands the route for a MySQL JSON
column: SQL NULL stays null (none), otherwise the stored JSON text is
parsed. MySQL validates JSON on write, so stored text that fails to
parse is unreachable and also maps to none. -/
def jsonColValue (c : Option String) : Option Json :=
  c.bind (fun s => Json.parse s)

/-- JavaScript truthiness of the parsed value of a JSON column: null is
falsy, and a stored 0, empty string or false parses to a falsy value
even though its serialized text is nonempty. -/
def jsonColTruthy (c : Option String) : Bool :=
  match jsonColValue c with
  | none => false
  | some v => v.truthy

/-- The new-format test of GET /business-plan/:id: any of the five
non-summary section columns has content — the four TEXT columns tested
as strings, the JSON-typed financial column tested on its parsed
value. -/
def hasNewFormatB (p : DBPlanRow) : Bool :=
  colTruthy p.market_analysis || jsonColTruthy p.financial_projections ||
    colTruthy p.marketing_strategy || colTruthy p.operations_plan ||
    colTruthy p.risk_analysis

/-- The old-format test of GET /business-plan/:id: the executive summary
column has content and, after trimming, starts with an opening curly
brace. -/
def hasOldFormatB (p : DBPlanRow) : Bool :=
  colTruthy p.executive_summary &&
    startsWithList "\x7b".toList (jsTrim (p.executive_summary.getD "")).toList

/-- Does the read path of GET /business-plan/:id take the legacy branch?
The route formats per column only when hasNewFormat holds and
hasOldFormat does not; every other row goes through the legacy branch. -/
def oldFormatBranch (p : DBPlanRow) : Bool :=
  !(hasNewFormatB p && !hasOldFormatB p)

/-- The six display-ready section strings returned by
GET /business-plan/:id (the metadata fields id, title, status and the
timestamps are carried over unchanged and are elided here). -/
structure PlanOut where
  executive_summary : String
  market_analysis : String
  financial_projections : String
  marketing_strategy : String
  operations_plan : String
  risk_analysis : String
deriving DecidableEq, Repr

/-- The JavaScript or-else chain: the left value when it is present and
truthy, the right default otherwise (undefined and falsy both fall
through). -/
def jsOrJson (v : Option Json) (dflt : Json) : Json :=
  match v with
  | some j => if j.truthy then j else dflt
  | none => dflt

/-- Optional-chaining property read bp?.k: undefined when the receiver
is null. -/
def optGet (bp : Option Json) (k : String) : Option Json :=
  bp.bind (fun j => Json.get? j k)

/-- The new-format arm of GET /business-plan/:id: each column, defaulted
through the or-else chain to the empty string, is flattened
independently. The five TEXT columns reach the formatter as strings; the
JSON-typed financial column reaches it as the parsed value mysql2
returns, so a stored object is rendered as indented text and a stored
JSON string arrives unquoted. -/
def newFormatRead (p : DBPlanRow) : PlanOut where
  executive_summary := formatObjectToText (.str (p.executive_summary.getD ""))
  market_analysis := formatObjectToText (.str (p.market_analysis.getD ""))
  financial_projections :=
    formatObjectToText (jsOrJson (jsonColValue p.financial_projections) (.str ""))
  marketing_strategy := formatObjectToText (.str (p.marketing_strategy.getD ""))
  operations_plan := formatObjectToText (.str (p.operations_plan.getD ""))
  risk_analysis := formatObjectToText (.str (p.risk_analysis.getD ""))

/-- The legacy arm of GET /business-plan/:id: when the executive summary
column has content, JSON.parse it, falling back on a parse error to an
object holding the row title and the raw column as content; then spread
the camelCase keys across the six canonical fields, flattening each. -/
def oldFormatRead (p : DBPlanRow) : PlanOut :=
  let bp : Option Json :=
    if colTruthy p.executive_summary then
      match Json.parse (p.executive_summary.getD "") with
      | some v => some v
      | none =>
        some (.obj [("title", .str p.title),
          ("content", .str (p.executive_summary.getD ""))])
    else none
  { executive_summary :=
      formatObjectToText (jsOrJson (optGet bp "executiveSummary")
        (jsOrJson (optGet bp "content") (.str "")))
    market_analysis :=
      formatObjectToText (jsOrJson (optGet bp "marketAnalysis") (.str ""))
    financial_projections :=
      formatObjectToText (jsOrJson (optGet bp "financialProjections") (.str ""))
    marketing_strategy :=
      formatObjectToText (jsOrJson (optGet bp "marketingSales") (.str ""))
    operations_plan :=
      formatObjectToText (jsOrJson (optGet bp "operationsPlan") (.str ""))
    risk_analysis :=
      formatObjectToText (jsOrJson (optGet bp "riskAnalysis") (.str "")) }

/-- The read-time normalization of GET /business-plan/:id in
routes/ai.js. -/
def normalizeRead (p : DBPlanRow) : PlanOut :=
  if hasNewFormatB p && !hasOldFormatB p then newFormatRead p else oldFormatRead p

/-- HTTP responses of the modeled routes, restricted to the payload parts
the claims mention. -/
inductive Resp where
  | badRequest
  | notFound (msg : String)
  | serverError (msg : String)
  | okPlanRead (idea : IdeaRow) (plan : PlanOut)
  | okPlanCreated (bp : Json)
  | okFinProj (projectionId : Nat) (fp : Json)
  | okContent (content : String)
  | okMsg (msg : String)
  | okChat (message : String) (conversationId : Nat)

/-- The GET /business-plan/:id handler: plan lookup and related-idea
lookup both filter by id and by the authenticated user id inside the
query; an empty result is a 404. -/
def getBusinessPlanHandler (ideas : List IdeaRow) (plans : List DBPlanRow)
    (uid pid : Nat) : Resp :=
  match plans.find? (fun r => r.id == pid && r.userId == uid) with
  | none => .notFound "Business plan not found"
  | some plan =>
    match ideas.find? (fun r => r.id == plan.businessIdeaId && r.userId == uid) with
    | none => .notFound "Related business idea not found"
    | some idea => .okPlanRead idea (normalizeRead plan)

/-- The row inserted by POST /generate-business-plan. The five narrative
columns receive the JavaScript values of the or-else alias chains; the
financial column always receives JSON.stringify of its chain. -/
structure InsertRow where
  userId : Nat
  businessIdeaId : Nat
  title : Json
  executive_summary : Json
  market_analysis : Json
  financial_projections : String
  marketing_strategy : Json
  operations_plan : Json
  risk_analysis : Json

/-- The INSERT parameter list of POST /generate-business-plan in
routes/ai.js, built from the extraction result bp. -/
def planInsertRow (uid ideaId : Nat) (ideaTitle : String) (bp : Json) : InsertRow where
  userId := uid
  businessIdeaId := ideaId
  title := jsOrJson (bp.get? "title") (.str (ideaTitle ++ " - Business Plan"))
  executive_summary :=
    jsOrJson (bp.get? "executiveSummary") (jsOrJson (bp.get? "executive_summary") (.str ""))
  market_analysis :=
    jsOrJson (bp.get? "marketAnalysis") (jsOrJson (bp.get? "market_analysis") (.str ""))
  financial_projections :=
    Json.stringify (jsOrJson (bp.get? "financialProjections")
      (jsOrJson (bp.get? "financial_projections") (.obj [])))
  marketing_strategy :=
    jsOrJson (bp.get? "marketingSales") (jsOrJson (bp.get? "marketing_strategy") (.str ""))
  operations_plan :=
    jsOrJson (bp.get? "operationsPlan") (jsOrJson (bp.get? "operations_plan") (.str ""))
  risk_analysis :=
    jsOrJson (bp.get? "riskAnalysis") (jsOrJson (bp.get? "risk_analysis") (.str ""))

/-- The POST /generate-business-plan handler: look the idea up by id and
owner, call the model (an Except-valued oracle for the text completion),
extract, and insert exactly the rows of the returned write list. -/
def generateBusinessPlanHandler (ideas : List IdeaRow) (uid ideaId : Nat)
    (modelResult : Except String String) : List InsertRow × Resp :=
  match ideas.find? (fun r => r.id == ideaId && r.userId == uid) with
  | none => ([], .notFound "Business idea not found")
  | some idea =>
    match modelResult with
    | .error _ => ([], .serverError "Failed to generate business plan")
    | .ok text =>
      match generateBusinessPlanExtract idea.title text with
      | .error _ => ([], .serverError "Failed to generate business plan")
      | .ok outcome =>
        ([planInsertRow uid ideaId idea.title outcome.toJson],
          .okPlanCreated outcome.toJson)

/-- The POST /generate-financial-projection handler: idea lookup by id
and owner, then the projection is returned without any write, with the
idea id doubling as the projection id. -/
def generateFinancialProjectionHandler (ideas : List IdeaRow) (uid ideaId : Nat)
    (modelResult : Except String String) : Resp :=
  match ideas.find? (fun r => r.id == ideaId && r.userId == uid) with
  | none => .notFound "Business idea not found"
  | some idea =>
    match modelResult with
    | .error _ => .serverError "Failed to generate financial projection"
    | .ok text =>
      match generateFinancialProjectionExtract idea.title text with
      | .error _ => .serverError "Failed to generate financial projection"
      | .ok outcome => .okFinProj ideaId outcome.toJson

/-- The POST /generate-business-plan-section handler: idea lookup by id
and owner, then the generated section text is returned to the caller.
The handler issues no write to the business-plans table, so the plan
rows are returned unchanged. -/
def generateSectionHandler (ideas : List IdeaRow) (plans : List DBPlanRow)
    (uid ideaId : Nat) (sectionName : String) (content : String)
    (modelResult : Except String String) : List DBPlanRow × Resp :=
  match ideas.find? (fun r => r.id == ideaId && r.userId == uid) with
  | none => (plans, .notFound "Business idea not found")
  | some _ =>
    match modelResult with
    | .error _ => (plans, .serverError "Failed to generate section")
    | .ok text => (plans, .okContent text)

/-- The six section columns a PUT /plans/:id/sections/:section request
may target. -/
inductive PlanSection where
  | executive_summary
  | market_analysis
  | financial_projections
  | marketing_strategy
  | operations_plan
  | risk_analysis
deriving DecidableEq, Repr

/-- Read one section column of a plan row. -/
def getSection (r : DBPlanRow) : PlanSection → Option String
  | .executive_summary => r.executive_summary
  | .market_analysis => r.market_analysis
  | .financial_projections => r.financial_projections
  | .marketing_strategy => r.marketing_strategy
  | .operations_plan => r.operations_plan
  | .risk_analysis => r.risk_analysis

/-- The UPDATE of PUT /plans/:id/sections/:section: set the one targeted
column and the modification timestamp. -/
def setSection (r : DBPlanRow) (s : PlanSection) (content : String) (now : Nat) :
    DBPlanRow :=
  match s with
  | .executive_summary => { r with executive_summary := some content, updatedAt := now }
  | .market_analysis => { r with market_analysis := some content, updatedAt := now }
  | .financial_projections => { r with financial_projections := some content, updatedAt := now }
  | .marketing_strategy => { r with marketing_strategy := some content, updatedAt := now }
  | .operations_plan => { r with operations_plan := some content, updatedAt := now }
  | .risk_analysis => { r with risk_analysis := some content, updatedAt := now }

/-- The PUT /plans/:id/sections/:section handler: the body content is
trimmed by the validator and must be nonempty; the plan must exist for
the authenticated owner; then the one column named by the URL is updated
together with the timestamp. -/
def updatePlanSectionHandler (plans : List DBPlanRow) (uid pid : Nat)
    (s : PlanSection) (rawContent : String) (now : Nat) : List DBPlanRow × Resp :=
  let content := jsTrim rawContent
  if content == "" then (plans, .badRequest)
  else
    match plans.find? (fun r => r.id == pid && r.userId == uid) with
    | none => (plans, .notFound "Business plan not found")
    | some _ =>
      (plans.map (fun r => if r.id == pid then setSection r s content now else r),
        .okMsg "Business plan section updated successfully")

/-- A chat-conversations row. -/
structure ConvRow where
  id : Nat
  userId : Nat
  title : String
deriving DecidableEq, Repr

/-- A chat-messages row. -/
structure MsgRow where
  conversationId : Nat
  role : String
  content : String
deriving DecidableEq, Repr

/-- The chat tables plus the auto-increment counter for conversation
ids. -/
structure ChatDB where
  conversations : List ConvRow
  messages : List MsgRow
  nextConvId : Nat
deriving DecidableEq, Repr

/-- The POST /chat handler of routes/ai.js: validate the trimmed message,
create a conversation row when no id was supplied, insert the user
message, then call the model; on model failure the catch returns a 500
with the inserts already committed, on success the assistant message is
appended as well. -/
def chatHandler (db : ChatDB) (uid : Nat) (message : String)
    (conversationId : Option Nat) (modelResult : Except String String) :
    ChatDB × Resp :=
  let msg := jsTrim message
  if msg == "" then (db, .badRequest)
  else
    let convId := match conversationId with
      | some cid => cid
      | none => db.nextConvId
    let db1 := match conversationId with
      | some _ => db
      | none =>
        { db with
            conversations :=
              db.conversations ++ [ConvRow.mk db.nextConvId uid "New Conversation"],
            nextConvId := db.nextConvId + 1 }
    let db2 := { db1 with messages := db1.messages ++ [MsgRow.mk convId "user" msg] }
    match modelResult with
    | .error _ => (db2, .serverError "Failed to process chat message")
    | .ok aiText =>
      ({ db2 with messages := db2.messages ++ [MsgRow.mk convId "assistant" aiText] },
        .okChat aiText convId)

/-- Modelled from the spec: the legacy-detection predicate exactly as the
claim words it — the five non-summary columns all empty AND the
executive summary nonempty and beginning, after trimming, with an
opening curly brace. Stated for comparison with oldFormatBranch, the
condition the code actually applies. -/
def specLegacyDetect (p : DBPlanRow) : Bool :=
  !colTruthy p.market_analysis && !colTruthy p.financial_projections &&
    !colTruthy p.marketing_strategy && !colTruthy p.operations_plan &&
    !colTruthy p.risk_analysis && colTruthy p.executive_summary &&
    startsWithList "\x7b".toList (jsTrim (p.executive_summary.getD "")).toList

/-- Modelled from the spec: the claim speaks of a heuristic key
normalizing to market_analysis; the source itself never normalizes the
heuristic keys, so the natural reading — lowercase the label and replace
spaces by underscores — is modeled here for the comparison. -/
def normalizeLabel (s : String) : String :=
  String.mk (s.toList.map (fun c => if c == ' ' then '_' else c.toLower))

/-- Test vector: a stored row whose market-analysis column has content
while its executive summary is a JSON blob. -/
def mixedFormatRow : DBPlanRow where
  id := 1
  userId := 1
  businessIdeaId := 1
  title := "T"
  executive_summary := some "\x7b\"executiveSummary\":\"A\"\x7d"
  market_analysis := some "MA"
  financial_projections := none
  marketing_strategy := none
  operations_plan := none
  risk_analysis := none
  updatedAt := 0

/-- Test vector: a plain new-format row with two text sections. -/
def plainNewRow : DBPlanRow where
  id := 2
  userId := 1
  businessIdeaId := 1
  title := "T"
  executive_summary := some "plain summary"
  market_analysis := some "MA"
  financial_projections := none
  marketing_strategy := none
  operations_plan := none
  risk_analysis := none
  updatedAt := 0

/-- Test vector: a new-format row whose only content is the operations
column. -/
def opsOnlyRow : DBPlanRow where
  id := 3
  userId := 1
  businessIdeaId := 1
  title := "T"
  executive_summary := none
  market_analysis := none
  financial_projections := none
  marketing_strategy := none
  operations_plan := some "ops text"
  risk_analysis := none
  updatedAt := 0

/-- Test vector: a row with every section column NULL. -/
def allNullRow : DBPlanRow where
  id := 4
  userId := 1
  businessIdeaId := 1
  title := "T"
  executive_summary := none
  market_analysis := none
  financial_projections := none
  marketing_strategy := none
  operations_plan := none
  risk_analysis := none
  updatedAt := 0

/-- Test vector: a new-format row whose JSON financial column stores a
serialized two-field object, as the whole-plan insert produces. -/
def jsonFinRow : DBPlanRow where
  id := 6
  userId := 1
  businessIdeaId := 1
  title := "T"
  executive_summary := none
  market_analysis := none
  financial_projections := some "\x7b\"year1\":100,\"year2\":200\x7d"
  marketing_strategy := none
  operations_plan := none
  risk_analysis := none
  updatedAt := 0

/-- Test vector: a new-format row whose JSON financial column stores a
serialized JSON string. -/
def quotedFinRow : DBPlanRow where
  id := 7
  userId := 1
  businessIdeaId := 1
  title := "T"
  executive_summary := none
  market_analysis := none
  financial_projections := some "\"plain\""
  marketing_strategy := none
  operations_plan := none
  risk_analysis := none
  updatedAt := 0

/-- Test vector: the legacy row of the spec, a two-key JSON blob in the
executive summary and every other column empty. -/
def legacyBlobRow : DBPlanRow where
  id := 5
  userId := 1
  businessIdeaId := 9
  title := "T"
  executive_summary := some "\x7b\"executiveSummary\":\"A\",\"marketAnalysis\":\"B\"\x7d"
  market_analysis := none
  financial_projections := none
  marketing_strategy := none
  operations_plan := none
  risk_analysis := none
  updatedAt := 0

/-- Test vector: a business idea owned by user 1. -/
def ideaOfUserOne : IdeaRow where
  id := 2
  userId := 1
  title := "Coffee Kiosk"
  description := "A kiosk"
  industry := "Food"
  target_market := "Locals"
  initial_investment := 60000
  expected_revenue := 40000
  success_probability := 70
  status := "draft"
  location := some "Musanze"
  budget_range := some "50000-200000"

/-- Test vector: an existing plan row of user 1 with stored risk text. -/
def planWithRisk : DBPlanRow where
  id := 1
  userId := 1
  businessIdeaId := 2
  title := "Plan"
  executive_summary := some "summary text"
  market_analysis := some "market text"
  financial_projections := some "fin text"
  marketing_strategy := some "marketing text"
  operations_plan := some "ops text"
  risk_analysis := some "OLD RISK TEXT"
  updatedAt := 0

/-- C5: the flattening function is the identity on plain strings — for
every string s, formatObjectToText applied to the string value s returns
s unchanged, so flattening already-flat input is a no-op. -/
theorem c5_flatten_idempotent_on_strings (s : String) :
    formatObjectToText (Json.str s) = s := rfl

/-- C7: the concrete legacy read of the spec. For a stored row whose
executive summary is the two-key JSON blob with executiveSummary A and
marketAnalysis B and whose five other section columns are empty, the
normalized read returns executive_summary A, market_analysis B, and the
remaining four sections as empty strings. -/
theorem c7_legacy_read_concrete :
    normalizeRead legacyBlobRow =
      { executive_summary := "A", market_analysis := "B",
        financial_projections := "", marketing_strategy := "",
        operations_plan := "", risk_analysis := "" } := by
  decide

/-- C1: counterexample. A stored row whose market-analysis column has
content and whose executive summary begins with an opening curly brace
is routed through the legacy branch by the code (its normalized
market_analysis comes from the parsed blob and is empty, not the stored
column text), while the claim classifies every such row as new-format
with the six columns independently flattened. -/
theorem c1_legacy_detection_counterexample :
    oldFormatBranch mixedFormatRow = true ∧
    specLegacyDetect mixedFormatRow = false ∧
    (normalizeRead mixedFormatRow).market_analysis = "" ∧
    mixedFormatRow.market_analysis = some "MA" := by
  decide

/-- C1 amended: the legacy branch of GET /business-plan/:id runs exactly
when the executive summary is nonempty and trim-starts with an opening
curly brace, OR all five other section columns are empty or falsy — the
four TEXT columns tested as strings and the JSON-typed financial column
tested on the parsed value mysql2 returns. Only in the remaining case
are the six columns independently flattened: the five TEXT columns come
back unchanged (NULL as the empty string), while the financial column is
flattened from its parsed JSON value — a stored serialized object is
rendered as indented key-value text and a stored JSON string arrives
unquoted, as the two concrete rows show. -/
theorem c1_legacy_detection_amended (p : DBPlanRow) :
    (oldFormatBranch p = true ↔
      (hasOldFormatB p = true ∨ hasNewFormatB p = false)) ∧
    (oldFormatBranch p = false →
      normalizeRead p =
        { executive_summary := p.executive_summary.getD "",
          market_analysis := p.market_analysis.getD "",
          financial_projections :=
            formatObjectToText (jsOrJson (jsonColValue p.financial_projections) (.str "")),
          marketing_strategy := p.marketing_strategy.getD "",
          operations_plan := p.operations_plan.getD "",
          risk_analysis := p.risk_analysis.getD "" }) ∧
    (normalizeRead jsonFinRow).financial_projections = "Year1: 100\n\nYear2: 200" ∧
    (normalizeRead quotedFinRow).financial_projections = "plain" := by
  refine ⟨?_, ?_, by decide, by decide⟩
  · cases h1 : hasNewFormatB p <;> cases h2 : hasOldFormatB p <;>
      simp [oldFormatBranch, h1, h2]
  · intro h
    have hc : (hasNewFormatB p && !hasOldFormatB p) = true := by
      have := congrArg Bool.not h
      simpa [oldFormatBranch] using this
    simp [normalizeRead, hc, newFormatRead, formatObjectToText]

/-- C1 amended, witness: a row whose market-analysis column has content
and whose executive summary is plain text takes the per-column branch
and is returned column for column. -/
theorem c1_legacy_detection_amended_witness :
    normalizeRead plainNewRow =
      { executive_summary := "plain summary", market_analysis := "MA",
        financial_projections := "", marketing_strategy := "",
        operations_plan := "", risk_analysis := "" } :=
  (c1_legacy_detection_amended plainNewRow).2.1 (by decide)

/-- C2: counterexample. The completion text with a bracketed but
malformed capture is extracted by generateBusinessIdeas to a raised
error, not to the heuristic fallback: the capture exists, fails to
parse, and the extraction is the thrown failure. -/
theorem c2_extractor_counterexample :
    captureBetween '[' ']' "[oops]" = some "[oops]" ∧
    Json.parse "[oops]" = none ∧
    generateBusinessIdeasExtract "[oops]" =
      .error "Failed to generate business ideas" :=
  ⟨by decide, rfl, rfl⟩

/-- C2 amended: for generateBusinessPlan, a raw completion whose strict
capture is absent or fails to parse falls through to the heuristic
fallback and the extraction never raises; for generateBusinessIdeas only
an absent capture falls through to the heuristic — a present capture
that fails to parse raises the generic failure instead. -/
theorem c2_extractor_amended :
    (∀ title text : String, captureBetween '\x7b' '\x7d' text = none →
      generateBusinessPlanExtract title text =
        .ok (.fallback (title ++ " - Business Plan") text
          (parseBusinessPlanSections text))) ∧
    (∀ title text cap : String, captureBetween '\x7b' '\x7d' text = some cap →
      Json.parse cap = none →
      generateBusinessPlanExtract title text =
        .ok (.fallback (title ++ " - Business Plan") text
          (parseBusinessPlanSections text))) ∧
    (∀ title text : String, exceptOk (generateBusinessPlanExtract title text) = true) ∧
    (∀ text : String, captureBetween '[' ']' text = none →
      generateBusinessIdeasExtract text = .ok (.heuristic (parseBusinessIdeas text))) := by
  refine ⟨?_, ?_, ?_, ?_⟩
  · intro t x h
    simp [generateBusinessPlanExtract, h]
  · intro t x cap h hp
    simp [generateBusinessPlanExtract, h, hp]
  · intro t x
    unfold generateBusinessPlanExtract
    cases h : captureBetween '\x7b' '\x7d' x with
    | none => simp [exceptOk]
    | some cap => cases hp : Json.parse cap <;> simp [exceptOk, hp]
  · intro x h
    simp [generateBusinessIdeasExtract, h]

/-- C2 amended, witness: a brace-free completion falls to the plan
heuristic fallback. -/
theorem c2_extractor_amended_witness :
    generateBusinessPlanExtract "Shop" "no braces here" =
      .ok (.fallback "Shop - Business Plan" "no braces here"
        (parseBusinessPlanSections "no braces here")) :=
  c2_extractor_amended.1 "Shop" "no braces here" (by decide)

/-- C3: every generation or read route that names a business idea or a
plan looks it up with the owner id inside the query predicate; when no
row matches the id-and-owner pair — the idea or plan does not exist, or
belongs to another user — the handler answers the constant 404 payload
and no row content. -/
theorem c3_ownership_notfound (ideas : List IdeaRow) (plans : List DBPlanRow)
    (uid ideaId pid : Nat) (sectionName content : String)
    (m1 m2 m3 : Except String String)
    (hIdea : ideas.find? (fun r => r.id == ideaId && r.userId == uid) = none)
    (hPlan : plans.find? (fun r => r.id == pid && r.userId == uid) = none) :
    generateBusinessPlanHandler ideas uid ideaId m1 =
      ([], .notFound "Business idea not found") ∧
    generateFinancialProjectionHandler ideas uid ideaId m2 =
      .notFound "Business idea not found" ∧
    generateSectionHandler ideas plans uid ideaId sectionName content m3 =
      (plans, .notFound "Business idea not found") ∧
    getBusinessPlanHandler ideas plans uid pid =
      .notFound "Business plan not found" := by
  refine ⟨?_, ?_, ?_, ?_⟩ <;>
    simp [generateBusinessPlanHandler, generateFinancialProjectionHandler,
      generateSectionHandler, getBusinessPlanHandler, hIdea, hPlan]

/-- C3 witness: user 2 asking for the idea and plan of user 1 receives
the 404 payloads on every route. -/
theorem c3_ownership_notfound_witness :
    generateBusinessPlanHandler [ideaOfUserOne] 2 2 (.ok "t") =
      ([], .notFound "Business idea not found") ∧
    generateFinancialProjectionHandler [ideaOfUserOne] 2 2 (.ok "t") =
      .notFound "Business idea not found" ∧
    generateSectionHandler [ideaOfUserOne] [planWithRisk] 2 2 "risk_analysis" "" (.ok "t") =
      ([planWithRisk], .notFound "Business idea not found") ∧
    getBusinessPlanHandler [ideaOfUserOne] [planWithRisk] 2 1 =
      .notFound "Business plan not found" :=
  c3_ownership_notfound [ideaOfUserOne] [planWithRisk] 2 2 1 "risk_analysis" ""
    (.ok "t") (.ok "t") (.ok "t") (by decide) (by decide)

/-- C4: counterexample. POST /generate-business-plan-section issues no
database write: with an existing plan row holding old risk text, the
handler returns the freshly generated content but leaves the plan table
— including the targeted risk_analysis column and the timestamp —
entirely unchanged, contradicting the claim that the call modifies the
target column. -/
theorem c4_section_update_counterexample :
    (generateSectionHandler [ideaOfUserOne] [planWithRisk] 1 2 "risk_analysis" ""
        (.ok "NEW RISK TEXT")).1 = [planWithRisk] ∧
    planWithRisk.risk_analysis = some "OLD RISK TEXT" ∧
    (generateSectionHandler [ideaOfUserOne] [planWithRisk] 1 2 "risk_analysis" ""
        (.ok "NEW RISK TEXT")).2 = .okContent "NEW RISK TEXT" :=
  ⟨rfl, rfl, rfl⟩

/-- C4 amended: the PUT section route updates exactly the one targeted
column plus the modification timestamp, leaving the other five section
columns byte-identical, and rewrites the table by that one-column
update; the POST generation route for a single section performs no
write at all, returning the generated text only. -/
theorem c4_section_update_amended :
    (∀ (r : DBPlanRow) (s s2 : PlanSection) (content : String) (now : Nat),
      s2 ≠ s → getSection (setSection r s content now) s2 = getSection r s2) ∧
    (∀ (r : DBPlanRow) (s : PlanSection) (content : String) (now : Nat),
      getSection (setSection r s content now) s = some content ∧
      (setSection r s content now).updatedAt = now) ∧
    (∀ (plans : List DBPlanRow) (uid pid : Nat) (s : PlanSection)
        (rawContent : String) (now : Nat) (plan : DBPlanRow),
      plans.find? (fun r => r.id == pid && r.userId == uid) = some plan →
      jsTrim rawContent ≠ "" →
      (updatePlanSectionHandler plans uid pid s rawContent now).1 =
        plans.map (fun r =>
          if r.id == pid then setSection r s (jsTrim rawContent) now else r)) ∧
    (∀ (ideas : List IdeaRow) (plans : List DBPlanRow) (uid ideaId : Nat)
        (sectionName content : String) (m : Except String String),
      (generateSectionHandler ideas plans uid ideaId sectionName content m).1 = plans) := by
  refine ⟨?_, ?_, ?_, ?_⟩
  · intro r s s2 content now hne
    cases s <;> cases s2 <;> simp [setSection, getSection] <;> simp at hne
  · intro r s content now
    cases s <;> simp [setSection, getSection]
  · intro plans uid pid s rawContent now plan hf hne
    simp [updatePlanSectionHandler, hf, hne]
  · intro ideas plans uid ideaId sectionName content m
    unfold generateSectionHandler
    cases ideas.find? (fun r => r.id == ideaId && r.userId == uid) <;>
      cases m <;> simp

/-- C4 amended, witness: updating the risk section of the stored plan
rewrites only that column and the timestamp, and a generation call
leaves the table untouched. -/
theorem c4_section_update_amended_witness :
    getSection (setSection planWithRisk .risk_analysis "NEW RISK TEXT" 9)
        .market_analysis = planWithRisk.market_analysis ∧
    getSection (setSection planWithRisk .risk_analysis "NEW RISK TEXT" 9)
        .risk_analysis = some "NEW RISK TEXT" ∧
    (updatePlanSectionHandler [planWithRisk] 1 1 .risk_analysis " NEW RISK TEXT " 9).1 =
      [setSection planWithRisk .risk_analysis "NEW RISK TEXT" 9] ∧
    (generateSectionHandler [ideaOfUserOne] [planWithRisk] 1 2 "risk_analysis" ""
        (.ok "x")).1 = [planWithRisk] :=
  ⟨c4_section_update_amended.1 planWithRisk .risk_analysis .market_analysis
      "NEW RISK TEXT" 9 (by decide),
   (c4_section_update_amended.2.1 planWithRisk .risk_analysis "NEW RISK TEXT" 9).1,
   c4_section_update_amended.2.2.1 [planWithRisk] 1 1 .risk_analysis
      " NEW RISK TEXT " 9 planWithRisk (by decide) (by decide),
   c4_section_update_amended.2.2.2 [ideaOfUserOne] [planWithRisk] 1 2
      "risk_analysis" "" (.ok "x")⟩

/-- C6: counterexample. A completion with no JSON whose header line is
the capitalized label Market Analysis followed by a colon and a body
line is parsed by the heuristic to the empty mapping, because the
colon-header regex of the source accepts only fully uppercase labels;
the claim expects a key normalizing to market_analysis. -/
theorem c6_heuristic_header_counterexample :
    parseBusinessPlanSections "Market Analysis:\nThe market is growing." = [] ∧
    isHeaderLine "Market Analysis:" = false := by
  decide

/-- Helper: once a section is open, every nonempty non-header line is
appended, trimmed, to the accumulated body. -/
theorem sectionsLoop_body (cur : String) (hcur : cur ≠ "") :
    ∀ (ls : List String) (acc : List String) (secs : List (String × String)),
      (∀ l ∈ ls, jsTrim l ≠ "" ∧ isHeaderLine (jsTrim l) = false) →
      ls.foldl sectionsStep (cur, acc, secs) = (cur, acc ++ ls.map jsTrim, secs) := by
  intro ls
  induction ls with
  | nil => intro acc secs _; simp
  | cons l ls ih =>
    intro acc secs h
    have hl := h l (by simp)
    have hrest : ∀ x ∈ ls, jsTrim x ≠ "" ∧ isHeaderLine (jsTrim x) = false :=
      fun x hx => h x (by simp [hx])
    have hstep : sectionsStep (cur, acc, secs) l = (cur, acc ++ [jsTrim l], secs) := by
      simp [sectionsStep, hl.1, hl.2, hcur]
    simp only [List.foldl_cons, hstep, ih (acc ++ [jsTrim l]) secs hrest,
      List.map_cons, List.append_assoc, List.singleton_append]

/-- C6 amended: the heuristic recognizes a colon header only when its
label is entirely uppercase letters and whitespace: for a fully
uppercase MARKET ANALYSIS header followed by any nonempty non-header
body lines, the parse returns exactly the mapping from that label — a
key normalizing to market_analysis — to the trimmed body joined by
newlines. -/
theorem c6_heuristic_header_amended :
    (∀ bodyLines : List String,
      (∀ l ∈ bodyLines, jsTrim l ≠ "" ∧ isHeaderLine (jsTrim l) = false) →
      parsePlanSectionsLines ("MARKET ANALYSIS:" :: bodyLines) =
        [("MARKET ANALYSIS", joinWith "\n" (bodyLines.map jsTrim))]) ∧
    normalizeLabel "MARKET ANALYSIS" = "market_analysis" ∧
    parseBusinessPlanSections "MARKET ANALYSIS:\nGrowing demand.\nHigh margins." =
      [("MARKET ANALYSIS", "Growing demand.\nHigh margins.")] := by
  refine ⟨?_, by decide, by decide⟩
  intro body h
  unfold parsePlanSectionsLines
  simp only [List.foldl_cons]
  rw [show sectionsStep ("", [], []) "MARKET ANALYSIS:" =
    ("MARKET ANALYSIS", [], []) from by decide]
  rw [sectionsLoop_body "MARKET ANALYSIS" (by decide) body [] [] h]
  simp [upsert]

/-- C6 amended, witness: a concrete uppercase header with two body
lines. -/
theorem c6_heuristic_header_amended_witness :
    parsePlanSectionsLines ["MARKET ANALYSIS:", "alpha", "beta"] =
      [("MARKET ANALYSIS", joinWith "\n" (["alpha", "beta"].map jsTrim))] :=
  c6_heuristic_header_amended.1 ["alpha", "beta"] (by decide)

/-- C8: counterexample. When the extracted financialProjections value is
the plain string of text, the inserted financial_projections column
holds its JSON-stringified, quote-wrapped form, not the plain text
itself as the claim states. -/
theorem c8_plan_insert_counterexample :
    (planInsertRow 1 2 "T"
        (.obj [("financialProjections", .str "plain cash flow")])).financial_projections =
      "\"plain cash flow\"" ∧
    "\"plain cash flow\"" ≠ "plain cash flow" :=
  ⟨rfl, by decide⟩

/-- C8 amended: on whole-plan generation with a found idea, exactly one
plan row is inserted, built by the alias chains of the route; the
financial_projections column always stores JSON.stringify of its chain,
so an absent value is stored as the empty-object literal and a plain
string value is stored in its JSON-quoted form. -/
theorem c8_plan_insert_amended :
    (∀ (ideas : List IdeaRow) (uid ideaId : Nat) (text : String) (idea : IdeaRow),
      ideas.find? (fun r => r.id == ideaId && r.userId == uid) = some idea →
      ∃ outcome : PlanOutcome,
        generateBusinessPlanHandler ideas uid ideaId (.ok text) =
          ([planInsertRow uid ideaId idea.title outcome.toJson],
            .okPlanCreated outcome.toJson)) ∧
    (∀ (uid ideaId : Nat) (t : String) (bp : Json),
      bp.get? "financialProjections" = none →
      bp.get? "financial_projections" = none →
      (planInsertRow uid ideaId t bp).financial_projections = "\x7b\x7d") ∧
    (∀ (uid ideaId : Nat) (t s : String) (bp : Json),
      bp.get? "financialProjections" = some (.str s) → s ≠ "" →
      (planInsertRow uid ideaId t bp).financial_projections =
        "\"" ++ jsonEscape s ++ "\"") := by
  refine ⟨?_, ?_, ?_⟩
  · intro ideas uid ideaId text idea hf
    have hok : ∃ oc, generateBusinessPlanExtract idea.title text = .ok oc := by
      unfold generateBusinessPlanExtract
      cases h1 : captureBetween '\x7b' '\x7d' text with
      | none => exact ⟨_, rfl⟩
      | some cap =>
        cases h2 : Json.parse cap with
        | none => simp [h2]
        | some v => simp [h2]
    obtain ⟨oc, hoc⟩ := hok
    exact ⟨oc, by simp [generateBusinessPlanHandler, hf, hoc]⟩
  · intro uid ideaId t bp h1 h2
    simp [planInsertRow, jsOrJson, h1, h2, Json.stringify, stringifyMembers, joinWith]
  · intro uid ideaId t s bp h hs
    simp [planInsertRow, jsOrJson, h, Json.truthy, hs, Json.stringify]

/-- C8 amended, witness: the insert path at a concrete idea, the
empty-chain object literal, and a concrete quoted plain string. -/
theorem c8_plan_insert_amended_witness :
    (∃ outcome : PlanOutcome,
      generateBusinessPlanHandler [ideaOfUserOne] 1 2 (.ok "plan text") =
        ([planInsertRow 1 2 ideaOfUserOne.title outcome.toJson],
          .okPlanCreated outcome.toJson)) ∧
    (planInsertRow 1 2 "T" (.obj [])).financial_projections = "\x7b\x7d" ∧
    (planInsertRow 1 2 "T"
        (.obj [("financialProjections", .str "plain")])).financial_projections =
      "\"" ++ jsonEscape "plain" ++ "\"" :=
  ⟨c8_plan_insert_amended.1 [ideaOfUserOne] 1 2 "plan text" ideaOfUserOne (by decide),
   c8_plan_insert_amended.2.1 1 2 "T" (.obj []) rfl rfl,
   c8_plan_insert_amended.2.2 1 2 "T" "plain"
     (.obj [("financialProjections", .str "plain")]) rfl (by decide)⟩

/-- C9: the formatter and the read path always produce strings: the
null value formats to the empty string; on the per-column branch a NULL
column yields the empty string in the corresponding response field; and
on the legacy branch a row with no executive summary yields all six
fields empty. Totality over every JSON-shaped value holds by
construction, formatObjectToText being a total function into String. -/
theorem c9_sections_string_typed :
    (formatObjectToText Json.null = "") ∧
    (∀ p : DBPlanRow, oldFormatBranch p = false →
      (p.executive_summary = none → (normalizeRead p).executive_summary = "") ∧
      (p.market_analysis = none → (normalizeRead p).market_analysis = "") ∧
      (p.financial_projections = none → (normalizeRead p).financial_projections = "") ∧
      (p.marketing_strategy = none → (normalizeRead p).marketing_strategy = "") ∧
      (p.operations_plan = none → (normalizeRead p).operations_plan = "") ∧
      (p.risk_analysis = none → (normalizeRead p).risk_analysis = "")) ∧
    (∀ p : DBPlanRow, oldFormatBranch p = true →
      colTruthy p.executive_summary = false →
      normalizeRead p =
        { executive_summary := "", market_analysis := "",
          financial_projections := "", marketing_strategy := "",
          operations_plan := "", risk_analysis := "" }) := by
  refine ⟨rfl, ?_, ?_⟩
  · intro p h
    have hc : (hasNewFormatB p && !hasOldFormatB p) = true := by
      have := congrArg Bool.not h
      simpa [oldFormatBranch] using this
    refine ⟨?_, ?_, ?_, ?_, ?_, ?_⟩ <;> intro hcol <;>
      simp [normalizeRead, hc, newFormatRead, hcol, formatObjectToText,
        jsonColValue, jsOrJson]
  · intro p h hexec
    have hc : (hasNewFormatB p && !hasOldFormatB p) = false := by
      have := congrArg Bool.not h
      simpa [oldFormatBranch] using this
    simp [normalizeRead, hc, oldFormatRead, hexec, optGet, jsOrJson,
      formatObjectToText]

/-- C9 witness: the per-column branch on the row whose only content is
the operations column leaves market_analysis empty, and the legacy
branch on the all-NULL row returns six empty strings. -/
theorem c9_sections_string_typed_witness :
    (normalizeRead opsOnlyRow).market_analysis = "" ∧
    normalizeRead allNullRow =
      { executive_summary := "", market_analysis := "",
        financial_projections := "", marketing_strategy := "",
        operations_plan := "", risk_analysis := "" } :=
  ⟨((c9_sections_string_typed.2.1 opsOnlyRow (by decide)).2.1 rfl),
   c9_sections_string_typed.2.2 allNullRow (by decide) rfl⟩

/-- C10: the chat route persists its inserts before the model call — on
a model failure the response is the 500 payload while the user message,
and the freshly created conversation row when no conversation id was
supplied, remain stored; with a supplied conversation id only the user
message is added. The operation is therefore not atomic with respect to
model failure. -/
theorem c10_chat_persists_on_model_failure :
    (∀ (db : ChatDB) (uid : Nat) (message e : String),
      jsTrim message ≠ "" →
      chatHandler db uid message none (.error e) =
        ({ conversations :=
             db.conversations ++ [ConvRow.mk db.nextConvId uid "New Conversation"],
           messages := db.messages ++ [MsgRow.mk db.nextConvId "user" (jsTrim message)],
           nextConvId := db.nextConvId + 1 },
         .serverError "Failed to process chat message")) ∧
    (∀ (db : ChatDB) (uid cid : Nat) (message e : String),
      jsTrim message ≠ "" →
      chatHandler db uid message (some cid) (.error e) =
        ({ db with messages := db.messages ++ [MsgRow.mk cid "user" (jsTrim message)] },
         .serverError "Failed to process chat message")) := by
  constructor
  · intro db uid message e h
    simp [chatHandler, h]
  · intro db uid cid message e h
    simp [chatHandler, h]

/-- C10 witness: a failing model call on an empty database still leaves
the new conversation and the user message stored, with the 500 reply. -/
theorem c10_chat_persists_on_model_failure_witness :
    chatHandler (ChatDB.mk [] [] 1) 7 "Hello" none (.error "boom") =
      (ChatDB.mk [ConvRow.mk 1 7 "New Conversation"] [MsgRow.mk 1 "user" "Hello"] 2,
        .serverError "Failed to process chat message") :=
  c10_chat_persists_on_model_failure.1 (ChatDB.mk [] [] 1) 7 "Hello" "boom" (by decide)

end InnoStart
